import Mathlib

/-!
Shallow embedding of the actix MPSC address channel (`src/addr/channel.rs`).

The channel is a bounded, back-pressured, multi-producer single-consumer
queue.  Its shared state is a single packed machine word (`Inner::state`)
holding the `is_open` flag in the top bit and the message count in the
remaining bits, two FIFO queues (messages and parked producer tasks), a
producer count, and a slot for the consumer's task handle.

`usize` is modelled as a 64-bit unsigned integer (`Nat` with explicit
wrap-around where the source arithmetic can overflow).  Task handles,
message payloads and producer identities are modelled as `Nat`.  Each
producer handle owns one `SenderTask`; the heap of sender tasks is a map
from producer id to `SenderTask`, and the parked queue stores producer ids
(standing for the `Arc<Mutex<SenderTask>>` references pushed by `park`).

The embedding is sequential: each channel operation (one call of
`try_send`, `send`, `do_send`, `poll`, `close`, clone, drop, ...) is one
atomic step, which matches the source's CAS-loop discipline where every
loop iteration re-reads the state and the claims under study are about the
per-operation logic and sequential executions.
-/

/-- `usize::MAX` for the modelled 64-bit word. -/
def USIZE_MAX : Nat := 2 ^ 64 - 1

/-- `const OPEN_MASK: usize = usize::MAX - (usize::MAX >> 1)` -/
def OPEN_MASK : Nat := USIZE_MAX - (USIZE_MAX >>> 1)

/-- `const INIT_STATE: usize = OPEN_MASK` -/
def INIT_STATE : Nat := OPEN_MASK

/-- `const MAX_CAPACITY: usize = !(OPEN_MASK)` (bitwise not on a 64-bit word). -/
def MAX_CAPACITY : Nat := USIZE_MAX ^^^ OPEN_MASK

/-- `const MAX_BUFFER: usize = MAX_CAPACITY >> 1` -/
def MAX_BUFFER : Nat := MAX_CAPACITY >>> 1

/-- Struct representation of `Inner::state` (source struct `State`). -/
structure State where
  is_open : Bool
  num_messages : Nat
deriving DecidableEq, Repr

/-- `fn decode_state(num: usize) -> State` -/
def decode_state (num : Nat) : State where
  is_open := num &&& OPEN_MASK == OPEN_MASK
  num_messages := num &&& MAX_CAPACITY

/-- `fn encode_state(state: &State) -> usize` -/
def encode_state (state : State) : Nat :=
  let num := state.num_messages
  if state.is_open then num ||| OPEN_MASK else num

theorem OPEN_MASK_eq : OPEN_MASK = 2 ^ 63 := by decide

theorem MAX_CAPACITY_eq : MAX_CAPACITY = 2 ^ 63 - 1 := by decide

theorem MAX_BUFFER_eq : MAX_BUFFER = 2 ^ 62 - 1 := by decide

theorem USIZE_MAX_eq : USIZE_MAX = 2 ^ 64 - 1 := by decide

/-- Decoding always yields a count within `MAX_CAPACITY`. -/
theorem decode_num_le (w : Nat) : (decode_state w).num_messages ≤ MAX_CAPACITY :=
  Nat.and_le_right

/-- `encode_state` / `decode_state` round-trip on counts that fit the field. -/
theorem decode_encode (b : Bool) (n : Nat) (h : n ≤ MAX_CAPACITY) :
    decode_state (encode_state ⟨b, n⟩) = ⟨b, n⟩ := by
  have hM : MAX_CAPACITY = 2 ^ 63 - 1 := MAX_CAPACITY_eq
  have hO : OPEN_MASK = 2 ^ 63 := OPEN_MASK_eq
  have hn : n < 2 ^ 63 := by omega
  cases b with
  | false =>
    have h1 : n &&& 2 ^ 63 = 0 := by
      rw [Nat.and_two_pow, Nat.testBit_lt_two_pow hn]
      simp
    have h2 : n &&& (2 ^ 63 - 1) = n := Nat.and_pow_two_sub_one_of_lt_two_pow hn
    show decode_state n = ⟨false, n⟩
    have hd : decode_state n = ⟨n &&& OPEN_MASK == OPEN_MASK, n &&& MAX_CAPACITY⟩ := rfl
    rw [hd, hO, hM, h1, h2]
    simp
  | true =>
    have hor : n ||| 2 ^ 63 = 2 ^ 63 + n := by
      have := Nat.mul_add_lt_is_or hn 1
      simp only [Nat.mul_one] at this
      rw [Nat.or_comm]
      omega
    have h1 : (2 ^ 63 + n) &&& 2 ^ 63 = 2 ^ 63 := by
      rw [Nat.and_two_pow]
      have ht : Nat.testBit (2 ^ 63 * 1 + n) 63 = true := by
        rw [Nat.testBit_mul_pow_two_add 1 hn 63]
        simp
      simp only [Nat.mul_one] at ht
      rw [ht]
      simp
    have h2 : (2 ^ 63 + n) &&& (2 ^ 63 - 1) = n := by
      rw [Nat.and_pow_two_sub_one_eq_mod, Nat.add_mod_left, Nat.mod_eq_of_lt hn]
    show decode_state (n ||| OPEN_MASK) = ⟨true, n⟩
    have hd : decode_state (n ||| OPEN_MASK) =
        ⟨(n ||| OPEN_MASK) &&& OPEN_MASK == OPEN_MASK, (n ||| OPEN_MASK) &&& MAX_CAPACITY⟩ := rfl
    rw [hd, hO, hM, hor, h1, h2]
    simp

/-- `Async<T>` from futures 0.1: `Ready(T) | NotReady`. -/
inductive Async (α : Type) where
  | ready (a : α)
  | notReady
deriving DecidableEq, Repr

/-- Returned from `Receiver::try_park()` (source enum `TryPark`). -/
inductive TryPark where
  | parked
  | closed
  | notEmpty
deriving DecidableEq, Repr

/-- Result of a producer send operation; `closed`/`notReady` carry the
original message back to the caller (`SendError::Closed`, `SendError::NotReady`).
`ok` stands for `Ok(..)` (the reply receiver of `send` is opaque here). -/
inductive SendResult where
  | ok
  | closed (msg : Nat)
  | notReady (msg : Nat)
deriving DecidableEq, Repr

/-- Source struct `SenderTask`: the task handle to wake and the parked flag,
guarded by a mutex (locking is atomic in this sequential model). -/
structure SenderTask where
  task : Option Nat
  is_parked : Bool
deriving DecidableEq, Repr

/-- `SenderTask::new()` -/
def SenderTask.new : SenderTask := ⟨none, false⟩

/-- `SenderTask::notify()`: clear `is_parked`, take the task handle out.
Returns the new slot and the handle that got notified (if any). -/
def SenderTask.notify (_t : SenderTask) : SenderTask × Option Nat :=
  (⟨none, false⟩, _t.task)

/-- The whole channel: `Inner` plus the per-producer handle state
(`sender_task` heap indexed by producer id, `maybe_parked` cells) plus ghost
instrumentation.

The two queues are the sequential model of `super::queue::Queue`.
Modelled from the spec: the queue is a lock-free MPSC FIFO whose pop yields
`Data(v)` / `Empty` / `Inconsistent`; push is total and FIFO.  In a
sequential execution the transient `Inconsistent` answer (a producer has
reserved but not yet linked a node) cannot be observed, so a queue is a
`List` with push at the tail and pop at the head.

Ghost fields (not in the source, observation only): `next_id` supplies
fresh producer ids, `notified` logs every task handle passed to
`Task::notify`, `inc_overflow` records that some increment pushed the
count past `MAX_CAPACITY` (into the open bit), `dec_underflow` records
that `dec_num_messages` ran on a zero count. -/
structure Sys where
  buffer : Nat
  state : Nat
  message_queue : List (Option Nat)
  parked_queue : List Nat
  num_senders : Nat
  recv_unparked : Bool
  recv_task : Option Nat
  stasks : Nat → SenderTask
  maybe_parked : Nat → Bool
  next_id : Nat
  notified : List Nat
  inc_overflow : Bool
  dec_underflow : Bool

/-- Point update of the sender-task heap. -/
def updSenderTask (f : Nat → SenderTask) (i : Nat) (t : SenderTask) : Nat → SenderTask :=
  fun j => if j = i then t else f j

/-- Point update of the `maybe_parked` cells. -/
def updCell (f : Nat → Bool) (i : Nat) (b : Bool) : Nat → Bool :=
  fun j => if j = i then b else f j

/-- `Inner::max_senders()`: `MAX_CAPACITY - self.buffer` -/
def Sys.max_senders (s : Sys) : Nat := MAX_CAPACITY - s.buffer

/-- `AddressSender::inc_num_messages`: one successful pass of the CAS loop on
the state word.  Result `(none, w)` is "channel closed" (no mutation),
`(some true, w)` is "should park" (no mutation — the CAS is skipped),
`(some false, w')` is "proceed" with the incremented word installed. -/
def inc_num_messages (buffer curr : Nat) : Option Bool × Nat :=
  let state := decode_state curr
  if !state.is_open then (none, curr)
  else
    let park_self := buffer != 0 && decide (buffer ≤ state.num_messages)
    if park_self then (some true, curr)
    else (some false, encode_state { state with num_messages := state.num_messages + 1 })

/-- `AddressSender::inc_num_messages_force(close)`: always increments while
open; when `close` is set the same CAS also clears `is_open`.  Returns the
`park_self` flag computed from the incremented count. -/
def inc_num_messages_force (buffer : Nat) (close : Bool) (curr : Nat) : Option Bool × Nat :=
  let state := decode_state curr
  if !state.is_open then (none, curr)
  else
    let state := { state with num_messages := state.num_messages + 1 }
    let state := if close then { state with is_open := false } else state
    let park_self := buffer != 0 && decide (buffer ≤ state.num_messages)
    (some park_self, encode_state state)

/-- `AddressReceiver::dec_num_messages`: `state.num_messages -= 1` and CAS.
`usize` subtraction wraps modulo `2^64` (release-build semantics). -/
def dec_num_messages (curr : Nat) : Nat :=
  let state := decode_state curr
  encode_state { state with num_messages := (state.num_messages + USIZE_MAX) % 2 ^ 64 }

/-- `AddressSender::signal()`: set `unparked`, take the consumer task handle
out of the slot and notify it; no-op when already unparked. -/
def Sys.signal (s : Sys) : Sys :=
  if s.recv_unparked then s
  else
    { s with recv_unparked := true, recv_task := none,
             notified := s.notified ++ s.recv_task.toList }

/-- `AddressSender::queue_push_and_signal(msg)`. -/
def Sys.queue_push_and_signal (s : Sys) (msg : Option Nat) : Sys :=
  Sys.signal { s with message_queue := s.message_queue ++ [msg] }

/-- `AddressSender::park(can_park)` called by producer `i` whose current
task handle is `cur`: install the (optional) handle with `is_parked = true`
on the producer's `SenderTask`, push a shared reference to it onto
`parked_queue`, then set the `maybe_parked` cell from a fresh read of
`state.is_open` (the post-push closed-check in the source). -/
def Sys.park (s : Sys) (i : Nat) (can_park : Bool) (cur : Nat) : Sys :=
  let task := if can_park then some cur else none
  let s1 := { s with stasks := updSenderTask s.stasks i { task := task, is_parked := true } }
  let s2 := { s1 with parked_queue := s1.parked_queue ++ [i] }
  let state := decode_state s2.state
  { s2 with maybe_parked := updCell s2.maybe_parked i state.is_open }

/-- `AddressSender::poll_unparked(do_park)` for producer `i` with current
task handle `cur`. -/
def Sys.poll_unparked (s : Sys) (i : Nat) (do_park : Bool) (cur : Nat) : Async Unit × Sys :=
  if s.maybe_parked i then
    let task := s.stasks i
    if !task.is_parked then
      (Async.ready (), { s with maybe_parked := updCell s.maybe_parked i false })
    else
      let task := { task with task := if do_park then some cur else none }
      (Async.notReady, { s with stasks := updSenderTask s.stasks i task })
  else (Async.ready (), s)

/-- Notify the `SenderTask` of producer `i` (the `task.lock().unwrap().notify()`
done by `unpark_one` and `close`); logs the woken handle. -/
def Sys.notify_sender (s : Sys) (i : Nat) : Sys :=
  let r := (s.stasks i).notify
  { s with stasks := updSenderTask s.stasks i r.1, notified := s.notified ++ r.2.toList }

/-- Ghost flag update for a performed increment: the increment overflowed the
count field exactly when the pre-state count was already `MAX_CAPACITY`. -/
def incOverflowFlag (s : Sys) : Bool :=
  s.inc_overflow || decide (MAX_CAPACITY ≤ (decode_state s.state).num_messages)

/-- `AddressSender::try_send` by producer `i` (current task handle `cur`,
only relevant to `poll_unparked`'s bookkeeping). -/
def Sys.try_send (s : Sys) (i msg cur : Nat) : SendResult × Sys :=
  match s.poll_unparked i false cur with
  | (Async.notReady, s1) => (SendResult.notReady msg, s1)
  | (Async.ready _, s1) =>
    match inc_num_messages s1.buffer s1.state with
    | (none, _) => (SendResult.closed msg, s1)
    | (some true, _) => (SendResult.notReady msg, s1)
    | (some false, next) =>
      let s2 := { s1 with state := next, inc_overflow := incOverflowFlag s1 }
      (SendResult.ok, s2.queue_push_and_signal (some msg))

/-- `AddressSender::send` by producer `i`: like `try_send` but parks the
producer (with its task handle) when the channel is at capacity. -/
def Sys.send (s : Sys) (i msg cur : Nat) : SendResult × Sys :=
  match s.poll_unparked i false cur with
  | (Async.notReady, s1) => (SendResult.notReady msg, s1)
  | (Async.ready _, s1) =>
    match inc_num_messages s1.buffer s1.state with
    | (none, _) => (SendResult.closed msg, s1)
    | (some true, _) => (SendResult.notReady msg, s1.park i true cur)
    | (some false, next) =>
      let s2 := { s1 with state := next, inc_overflow := incOverflowFlag s1 }
      (SendResult.ok, s2.queue_push_and_signal (some msg))

/-- `AddressSender::do_send`: force the increment (no back-pressure check),
then push and signal; fails only when the channel is closed. -/
def Sys.do_send (s : Sys) (msg : Nat) : SendResult × Sys :=
  match inc_num_messages_force s.buffer false s.state with
  | (none, _) => (SendResult.closed msg, s)
  | (some _, next) =>
    let s1 := { s with state := next, inc_overflow := incOverflowFlag s }
    (SendResult.ok, s1.queue_push_and_signal (some msg))

/-- `AddressSender::do_close` run by the last producer `i` being dropped:
force-increment-and-close; if that reports `park_self`, park without a task
handle; then push the `None` sentinel and signal. -/
def Sys.do_close (s : Sys) (i : Nat) : Sys :=
  match inc_num_messages_force s.buffer true s.state with
  | (none, _) => s
  | (some park_self, next) =>
    let s1 := { s with state := next, inc_overflow := incOverflowFlag s }
    let s2 := if park_self then s1.park i false 0 else s1
    s2.queue_push_and_signal none

/-- `AddressSender::drop` for producer `i`: `fetch_sub(1)` on `num_senders`;
the last producer (previous value 1) runs `do_close`. -/
def Sys.drop_sender (s : Sys) (i : Nat) : Sys :=
  let prev := s.num_senders
  let s1 := { s with num_senders := s.num_senders - 1 }
  if prev = 1 then s1.do_close i else s1

/-- `Clone for AddressSender`: CAS-increment `num_senders`, panicking
(`none`) when the maximum is already reached; a fresh `SenderTask` is
allocated for the clone.  Returns the new producer id. -/
def Sys.clone_sender (s : Sys) : Option (Nat × Sys) :=
  if s.num_senders = s.max_senders then none
  else
    let i := s.next_id
    some (i, { s with num_senders := s.num_senders + 1, next_id := i + 1,
                      stasks := updSenderTask s.stasks i SenderTask.new,
                      maybe_parked := updCell s.maybe_parked i false })

/-- `AddressReceiver::sender()`: CAS-loop the state back to open, then the
same producer-count bump as `Clone` (panicking at the ceiling). -/
def Sys.sender (s : Sys) : Option (Nat × Sys) :=
  let st := decode_state s.state
  let s1 := if st.is_open then s
            else { s with state := encode_state { st with is_open := true } }
  s1.clone_sender

/-- `AddressReceiver::next_message()`: pop the message queue
(`Data`/`Empty`; `Inconsistent` cannot arise sequentially). -/
def Sys.next_message (s : Sys) : Async (Option Nat) × Sys :=
  match s.message_queue with
  | [] => (Async.notReady, s)
  | msg :: rest => (Async.ready msg, { s with message_queue := rest })

/-- `AddressReceiver::unpark_one()`: pop one parked `SenderTask` reference
and notify it; no-op on an empty queue. -/
def Sys.unpark_one (s : Sys) : Sys :=
  match s.parked_queue with
  | [] => s
  | i :: rest => Sys.notify_sender { s with parked_queue := rest } i

/-- `AddressReceiver::try_park()` with the consumer's current task `cur`. -/
def Sys.try_park (s : Sys) (cur : Nat) : TryPark × Sys :=
  let state := decode_state s.state
  if !state.is_open && state.num_messages == 0 then (TryPark.closed, s)
  else if s.recv_unparked then (TryPark.notEmpty, { s with recv_unparked := false })
  else (TryPark.parked, { s with recv_task := some cur })

/-- `dec_num_messages` on the shared word plus the ghost underflow flag. -/
def Sys.dec_messages (s : Sys) : Sys :=
  { s with state := dec_num_messages s.state,
           dec_underflow := s.dec_underflow || ((decode_state s.state).num_messages == 0) }

/-- The body of `Stream::poll for AddressReceiver`, with explicit fuel for
the retry loop (the `TryPark::NotEmpty => continue` arm).  `poll` runs it
with fuel 2, which `poll_loop_fuel` proves is exact: the loop re-runs at
most once, because `NotEmpty` consumes the pending unpark signal. -/
def Sys.poll_loop (cur : Nat) : Nat → Sys → Async (Option Nat) × Sys
  | 0, s => (Async.notReady, s)
  | fuel + 1, s =>
    match s.next_message with
    | (Async.ready msg, s1) =>
      let s2 := s1.unpark_one
      let s3 := s2.dec_messages
      (Async.ready msg, s3)
    | (Async.notReady, s1) =>
      match s1.try_park cur with
      | (TryPark.parked, s2) => (Async.notReady, s2)
      | (TryPark.closed, s2) => (Async.ready none, s2)
      | (TryPark.notEmpty, s2) => Sys.poll_loop cur fuel s2

/-- `Stream::poll for AddressReceiver` (the consumer's current task is `cur`).
`Async.ready none` is `Ready(None)`, `Async.ready (some m)` is
`Ready(Some(envelope m))`. -/
def Sys.poll (s : Sys) (cur : Nat) : Async (Option Nat) × Sys :=
  Sys.poll_loop cur 2 s

/-- `AddressReceiver::close()`: CAS `is_open` off, then drain the parked
queue notifying every parked producer. -/
def Sys.close (s : Sys) : Sys :=
  let st := decode_state s.state
  let s1 := if st.is_open
            then { s with state := encode_state { st with is_open := false } }
            else s
  s1.parked_queue.foldl (fun t i => t.notify_sender i) { s1 with parked_queue := [] }

/-- The `Sys` built by `fn channel(buffer)` once the buffer assertion has
passed: open state, no messages, one producer (id 0) with a fresh
`SenderTask`, empty queues. -/
def initSys (buffer : Nat) : Sys where
  buffer := buffer
  state := INIT_STATE
  message_queue := []
  parked_queue := []
  num_senders := 1
  recv_unparked := false
  recv_task := none
  stasks := fun _ => SenderTask.new
  maybe_parked := fun _ => false
  next_id := 1
  notified := []
  inc_overflow := false
  dec_underflow := false

/-- `fn channel(buffer)`: `assert!(buffer < MAX_BUFFER)` — `none` models the
panic of a failed assertion. -/
def channel (buffer : Nat) : Option Sys :=
  if buffer < MAX_BUFFER then some (initSys buffer) else none

/-- A `NotReady` answer from `next_message` leaves the state alone and means
the message queue was empty. -/
theorem next_message_notReady {s s1 : Sys} (h : s.next_message = (Async.notReady, s1)) :
    s1 = s ∧ s.message_queue = [] := by
  cases hm : s.message_queue with
  | nil =>
    rw [Sys.next_message, hm] at h
    exact ⟨(Prod.mk.injEq _ _ _ _ ▸ h).2.symm, rfl⟩
  | cons m rest =>
    rw [Sys.next_message, hm] at h
    simp at h

/-- A `NotEmpty` answer from `try_park` means the unpark signal was pending
and has just been consumed. -/
theorem try_park_notEmpty {s s2 : Sys} {cur : Nat}
    (h : s.try_park cur = (TryPark.notEmpty, s2)) :
    s2 = { s with recv_unparked := false } ∧ s.recv_unparked = true := by
  rw [Sys.try_park] at h
  by_cases h1 : (!(decode_state s.state).is_open && (decode_state s.state).num_messages == 0) = true
  · rw [if_pos h1] at h
    simp at h
  · rw [if_neg h1] at h
    by_cases h2 : s.recv_unparked
    · rw [if_pos h2] at h
      exact ⟨((Prod.mk.injEq _ _ _ _).mp h).2.symm, h2⟩
    · rw [if_neg h2] at h
      simp at h

/-- Unfolding of one iteration of the poll loop. -/
theorem poll_loop_succ (cur fuel : Nat) (s : Sys) :
    Sys.poll_loop cur (fuel + 1) s =
      match s.next_message with
      | (Async.ready msg, s1) =>
        let s2 := s1.unpark_one
        let s3 := s2.dec_messages
        (Async.ready msg, s3)
      | (Async.notReady, s1) =>
        match s1.try_park cur with
        | (TryPark.parked, s2) => (Async.notReady, s2)
        | (TryPark.closed, s2) => (Async.ready none, s2)
        | (TryPark.notEmpty, s2) => Sys.poll_loop cur fuel s2 := rfl

/-- With no pending message and no pending unpark signal the poll loop
terminates on its first iteration, whatever the remaining fuel. -/
theorem poll_loop_no_retry (cur m k : Nat) (s : Sys)
    (h1 : s.message_queue = []) (h2 : s.recv_unparked = false) :
    Sys.poll_loop cur (m + 1) s = Sys.poll_loop cur (k + 1) s := by
  have hn : s.next_message = (Async.notReady, s) := by
    simp [Sys.next_message, h1]
  rw [poll_loop_succ, poll_loop_succ, hn]
  dsimp only
  rcases hp : s.try_park cur with ⟨t, s2⟩
  cases t with
  | parked => rfl
  | closed => rfl
  | notEmpty =>
    exact absurd (try_park_notEmpty hp).2 (by rw [h2]; exact Bool.false_ne_true)

/-- Fuel 2 is exact for the `poll` retry loop: the `NotEmpty` arm consumes
the unpark signal, so the loop body runs at most twice. -/
theorem poll_loop_fuel (cur n : Nat) (s : Sys) :
    Sys.poll_loop cur (n + 2) s = Sys.poll_loop cur 2 s := by
  show Sys.poll_loop cur ((n + 1) + 1) s = Sys.poll_loop cur (1 + 1) s
  rw [poll_loop_succ cur (n + 1), poll_loop_succ cur 1]
  rcases hq : s.next_message with ⟨a, s1⟩
  cases a with
  | ready msg => rfl
  | notReady =>
    dsimp only
    rcases hp : s1.try_park cur with ⟨t, s2⟩
    cases t with
    | parked => rfl
    | closed => rfl
    | notEmpty =>
      dsimp only
      obtain ⟨he, hqe⟩ := next_message_notReady hq
      obtain ⟨he2, _⟩ := try_park_notEmpty hp
      have hq2 : s2.message_queue = [] := by rw [he2, he]; exact hqe
      have hu2 : s2.recv_unparked = false := by rw [he2]
      show Sys.poll_loop cur (n + 1) s2 = Sys.poll_loop cur (0 + 1) s2
      exact poll_loop_no_retry cur n 0 s2 hq2 hu2

/-- One channel operation of a sequential execution.  `i` is the producer
handle performing the call, `cur` the current task handle of the caller.
The receiver's own `Drop` (which pops without decrementing) is not a step:
these are the operations available while both endpoints are live. -/
inductive Op where
  | trySend (i msg cur : Nat)
  | send (i msg cur : Nat)
  | doSend (msg : Nat)
  | dropSender (i : Nat)
  | cloneSender
  | reopenSender
  | closeRx
  | poll (cur : Nat)
deriving DecidableEq, Repr

/-- The state transition of one operation.  A panicking `clone` aborts the
process, so no further channel operation can observe its state; it is
modelled as a stutter step. -/
def step (op : Op) (s : Sys) : Sys :=
  match op with
  | .trySend i msg cur => (s.try_send i msg cur).2
  | .send i msg cur => (s.send i msg cur).2
  | .doSend msg => (s.do_send msg).2
  | .dropSender i => s.drop_sender i
  | .cloneSender => match s.clone_sender with | none => s | some (_, s') => s'
  | .reopenSender => match s.sender with | none => s | some (_, s') => s'
  | .closeRx => s.close
  | .poll cur => (s.poll cur).2

/-- Run a sequential execution. -/
def run (ops : List Op) (s : Sys) : Sys := ops.foldl (fun t op => step op t) s

/-- Equational characterization of `inc_num_messages`. -/
theorem inc_num_messages_eq (buffer curr : Nat) :
    inc_num_messages buffer curr =
      if (decode_state curr).is_open then
        (if buffer != 0 && decide (buffer ≤ (decode_state curr).num_messages)
         then (some true, curr)
         else (some false, encode_state ⟨true, (decode_state curr).num_messages + 1⟩))
      else (none, curr) := by
  rcases hd : decode_state curr with ⟨b, n⟩
  cases b <;> simp [inc_num_messages, hd]

/-- Equational characterization of `inc_num_messages_force`. -/
theorem inc_num_messages_force_eq (buffer : Nat) (close : Bool) (curr : Nat) :
    inc_num_messages_force buffer close curr =
      if (decode_state curr).is_open then
        (some (buffer != 0 && decide (buffer ≤ (decode_state curr).num_messages + 1)),
         encode_state ⟨!close, (decode_state curr).num_messages + 1⟩)
      else (none, curr) := by
  rcases hd : decode_state curr with ⟨b, n⟩
  cases b <;> cases close <;> simp [inc_num_messages_force, hd]

/-- On a positive count, `dec_num_messages` is an exact decrement (the
wrap-around of the `usize` subtraction is not reached). -/
theorem dec_num_messages_eq (curr : Nat) (h : 1 ≤ (decode_state curr).num_messages) :
    dec_num_messages curr =
      encode_state ⟨(decode_state curr).is_open, (decode_state curr).num_messages - 1⟩ := by
  unfold dec_num_messages
  rcases hd : decode_state curr with ⟨b, n⟩
  rw [hd] at h
  dsimp only at h ⊢
  have hle : n ≤ MAX_CAPACITY := by
    have := decode_num_le curr
    rw [hd] at this
    exact this
  have p63 : (2 : Nat) ^ 63 = 9223372036854775808 := by norm_num
  have p64 : (2 : Nat) ^ 64 = 18446744073709551616 := by norm_num
  rw [MAX_CAPACITY_eq, p63] at hle
  have hmod : (n + USIZE_MAX) % 2 ^ 64 = n - 1 := by
    have hU : USIZE_MAX = 2 ^ 64 - 1 := USIZE_MAX_eq
    have h1 : n + USIZE_MAX = (n - 1) + 1 * 2 ^ 64 := by
      rw [hU, p64]
      omega
    rw [h1, Nat.add_mul_mod_self_right, Nat.mod_eq_of_lt (by rw [p64]; omega)]
  rw [hmod]

/-- Decoded view of `dec_num_messages` on a positive count. -/
theorem decode_dec (curr : Nat) (h : 1 ≤ (decode_state curr).num_messages) :
    decode_state (dec_num_messages curr) =
      ⟨(decode_state curr).is_open, (decode_state curr).num_messages - 1⟩ := by
  rw [dec_num_messages_eq curr h]
  exact decode_encode _ _ (by have := decode_num_le curr; omega)

/-- The freshly created channel word decodes to "open, no messages". -/
theorem decode_INIT : decode_state INIT_STATE = ⟨true, 0⟩ := by decide

/-- The fields observed by the counting invariant: configuration, packed
word, message queue and ghost flags.  `FrameEq s t` says `t` agrees with
`s` on all of them. -/
def FrameEq (s t : Sys) : Prop :=
  t.buffer = s.buffer ∧ t.state = s.state ∧ t.message_queue = s.message_queue ∧
  t.inc_overflow = s.inc_overflow ∧ t.dec_underflow = s.dec_underflow

theorem frameEq_rfl (s : Sys) : FrameEq s s := ⟨rfl, rfl, rfl, rfl, rfl⟩

theorem frameEq_trans {s t u : Sys} (h1 : FrameEq s t) (h2 : FrameEq t u) : FrameEq s u := by
  obtain ⟨a1, b1, c1, d1, e1⟩ := h1
  obtain ⟨a2, b2, c2, d2, e2⟩ := h2
  exact ⟨a2.trans a1, b2.trans b1, c2.trans c1, d2.trans d1, e2.trans e1⟩

theorem signal_frame (s : Sys) : FrameEq s s.signal := by
  unfold Sys.signal
  split
  · exact frameEq_rfl s
  · exact ⟨rfl, rfl, rfl, rfl, rfl⟩

theorem notify_sender_frame (s : Sys) (i : Nat) : FrameEq s (s.notify_sender i) :=
  ⟨rfl, rfl, rfl, rfl, rfl⟩

theorem park_frame (s : Sys) (i : Nat) (c : Bool) (cur : Nat) : FrameEq s (s.park i c cur) :=
  ⟨rfl, rfl, rfl, rfl, rfl⟩

theorem poll_unparked_frame (s : Sys) (i : Nat) (d : Bool) (cur : Nat) :
    FrameEq s (s.poll_unparked i d cur).2 := by
  unfold Sys.poll_unparked
  dsimp only
  split
  · split
    · exact ⟨rfl, rfl, rfl, rfl, rfl⟩
    · exact ⟨rfl, rfl, rfl, rfl, rfl⟩
  · exact frameEq_rfl s

theorem try_park_frame (s : Sys) (cur : Nat) : FrameEq s (s.try_park cur).2 := by
  unfold Sys.try_park
  dsimp only
  split
  · exact frameEq_rfl s
  · split
    · exact ⟨rfl, rfl, rfl, rfl, rfl⟩
    · exact ⟨rfl, rfl, rfl, rfl, rfl⟩

theorem unpark_one_frame (s : Sys) : FrameEq s s.unpark_one := by
  unfold Sys.unpark_one
  rcases h : s.parked_queue with _ | ⟨i, rest⟩
  · exact frameEq_rfl s
  · exact ⟨rfl, rfl, rfl, rfl, rfl⟩

theorem clone_sender_frame {s s' : Sys} {i : Nat} (h : s.clone_sender = some (i, s')) :
    FrameEq s s' := by
  unfold Sys.clone_sender at h
  split at h
  · simp at h
  · simp only [Option.some.injEq, Prod.mk.injEq] at h
    obtain ⟨-, hs⟩ := h
    rw [← hs]
    exact ⟨rfl, rfl, rfl, rfl, rfl⟩

theorem foldl_notify_frame (l : List Nat) (t : Sys) :
    FrameEq t (l.foldl (fun u i => u.notify_sender i) t) := by
  induction l generalizing t with
  | nil => exact frameEq_rfl t
  | cons i rest ih =>
    exact frameEq_trans (notify_sender_frame t i) (ih (t.notify_sender i))

/-- The counting invariant: the decoded count equals the number of envelopes
resident in the message queue, no increment has overflowed the count field
and no decrement has underflowed it. -/
def ChanInv (s : Sys) : Prop :=
  (decode_state s.state).num_messages = s.message_queue.length ∧
  s.inc_overflow = false ∧ s.dec_underflow = false

theorem chanInv_of_frameEq {s t : Sys} (h : FrameEq s t) (hs : ChanInv s) : ChanInv t := by
  obtain ⟨hb, hst, hq, hi, hd⟩ := h
  exact ⟨by rw [hst, hq]; exact hs.1, by rw [hi]; exact hs.2.1, by rw [hd]; exact hs.2.2⟩

theorem qpas_fields (s : Sys) (m : Option Nat) :
    (s.queue_push_and_signal m).state = s.state ∧
    (s.queue_push_and_signal m).message_queue = s.message_queue ++ [m] ∧
    (s.queue_push_and_signal m).inc_overflow = s.inc_overflow ∧
    (s.queue_push_and_signal m).dec_underflow = s.dec_underflow := by
  unfold Sys.queue_push_and_signal
  obtain ⟨-, hst, hq, hi, hd⟩ := signal_frame { s with message_queue := s.message_queue ++ [m] }
  exact ⟨hst, hq, hi, hd⟩

theorem chanInv_push {t : Sys} (m : Option Nat)
    (hnum : (decode_state t.state).num_messages = t.message_queue.length + 1)
    (hinc : t.inc_overflow = false) (hdec : t.dec_underflow = false) :
    ChanInv (t.queue_push_and_signal m) := by
  obtain ⟨hst, hq, hi, hd⟩ := qpas_fields t m
  refine ⟨?_, ?_, ?_⟩
  · rw [hst, hq, List.length_append]
    simpa using hnum
  · rw [hi]; exact hinc
  · rw [hd]; exact hdec

/-- Shape of the observable fields after a successful send-like operation:
one increment of the count (with open-bit `b`), one push of `m`, the ghost
overflow flag updated, the underflow flag untouched. -/
def PushShape (s t : Sys) (b : Bool) (m : Option Nat) : Prop :=
  t.state = encode_state ⟨b, (decode_state s.state).num_messages + 1⟩ ∧
  t.message_queue = s.message_queue ++ [m] ∧
  t.inc_overflow = incOverflowFlag s ∧
  t.dec_underflow = s.dec_underflow

theorem incOverflowFlag_of_frameEq {s t : Sys} (h : FrameEq s t) :
    incOverflowFlag t = incOverflowFlag s := by
  obtain ⟨-, hst, -, hi, -⟩ := h
  unfold incOverflowFlag
  rw [hst, hi]

theorem pushShape_of_frameEq {s s1 t : Sys} {b : Bool} {m : Option Nat}
    (hf : FrameEq s s1) (hsh : PushShape s1 t b m) : PushShape s t b m := by
  obtain ⟨hst, hq, hi, hd⟩ := hsh
  obtain ⟨hfb, hfs, hfq, hfi, hfd⟩ := hf
  refine ⟨?_, ?_, ?_, ?_⟩
  · rw [hst, hfs]
  · rw [hq, hfq]
  · rw [hi, incOverflowFlag_of_frameEq ⟨hfb, hfs, hfq, hfi, hfd⟩]
  · rw [hd, hfd]

theorem chanInv_of_pushShape {s t : Sys} {b : Bool} {m : Option Nat}
    (hInv : ChanInv s) (hsh : PushShape s t b m)
    (hb : t.message_queue.length ≤ MAX_CAPACITY) : ChanInv t := by
  obtain ⟨hst, hq, hi, hd⟩ := hsh
  obtain ⟨hnum, hio, hdu⟩ := hInv
  have hlen : s.message_queue.length + 1 ≤ MAX_CAPACITY := by
    rw [hq, List.length_append] at hb
    simpa using hb
  have hdec : decode_state t.state = ⟨b, (decode_state s.state).num_messages + 1⟩ := by
    rw [hst]
    exact decode_encode b _ (by rw [hnum]; omega)
  refine ⟨?_, ?_, ?_⟩
  · rw [hdec, hq, List.length_append]
    show (decode_state s.state).num_messages + 1 = _
    rw [hnum]
    simp
  · rw [hi]
    unfold incOverflowFlag
    rw [hio, Bool.false_or, decide_eq_false_iff_not]
    rw [hnum]
    omega
  · rw [hd]
    exact hdu

theorem try_send_shape (s : Sys) (i msg cur : Nat) :
    FrameEq s (s.try_send i msg cur).2 ∨
    PushShape s (s.try_send i msg cur).2 true (some msg) := by
  rcases hpu : s.poll_unparked i false cur with ⟨a, s1⟩
  have hf : FrameEq s s1 := by
    have h := poll_unparked_frame s i false cur
    rw [hpu] at h
    exact h
  unfold Sys.try_send
  rw [hpu]
  cases a with
  | notReady => exact Or.inl hf
  | ready u =>
    dsimp only
    by_cases hopen : (decode_state s1.state).is_open = true
    · rw [inc_num_messages_eq, if_pos hopen]
      by_cases hpark :
          (s1.buffer != 0 && decide (s1.buffer ≤ (decode_state s1.state).num_messages)) = true
      · rw [if_pos hpark]
        exact Or.inl hf
      · rw [if_neg hpark]
        refine Or.inr (pushShape_of_frameEq hf ?_)
        obtain ⟨hst, hq, hi, hd⟩ := qpas_fields
          { s1 with state := encode_state ⟨true, (decode_state s1.state).num_messages + 1⟩,
                    inc_overflow := incOverflowFlag s1 } (some msg)
        exact ⟨hst, hq, hi, hd⟩
    · rw [inc_num_messages_eq, if_neg hopen]
      exact Or.inl hf

theorem send_shape (s : Sys) (i msg cur : Nat) :
    FrameEq s (s.send i msg cur).2 ∨
    PushShape s (s.send i msg cur).2 true (some msg) := by
  rcases hpu : s.poll_unparked i false cur with ⟨a, s1⟩
  have hf : FrameEq s s1 := by
    have h := poll_unparked_frame s i false cur
    rw [hpu] at h
    exact h
  unfold Sys.send
  rw [hpu]
  cases a with
  | notReady => exact Or.inl hf
  | ready u =>
    dsimp only
    by_cases hopen : (decode_state s1.state).is_open = true
    · rw [inc_num_messages_eq, if_pos hopen]
      by_cases hpark :
          (s1.buffer != 0 && decide (s1.buffer ≤ (decode_state s1.state).num_messages)) = true
      · rw [if_pos hpark]
        exact Or.inl (frameEq_trans hf (park_frame s1 i true cur))
      · rw [if_neg hpark]
        refine Or.inr (pushShape_of_frameEq hf ?_)
        obtain ⟨hst, hq, hi, hd⟩ := qpas_fields
          { s1 with state := encode_state ⟨true, (decode_state s1.state).num_messages + 1⟩,
                    inc_overflow := incOverflowFlag s1 } (some msg)
        exact ⟨hst, hq, hi, hd⟩
    · rw [inc_num_messages_eq, if_neg hopen]
      exact Or.inl hf

theorem do_send_shape (s : Sys) (msg : Nat) :
    FrameEq s (s.do_send msg).2 ∨ PushShape s (s.do_send msg).2 true (some msg) := by
  unfold Sys.do_send
  by_cases hopen : (decode_state s.state).is_open = true
  · rw [inc_num_messages_force_eq, if_pos hopen]
    dsimp only
    refine Or.inr ?_
    obtain ⟨hst, hq, hi, hd⟩ := qpas_fields
      { s with state := encode_state ⟨!false, (decode_state s.state).num_messages + 1⟩,
               inc_overflow := incOverflowFlag s } (some msg)
    exact ⟨hst, hq, hi, hd⟩
  · rw [inc_num_messages_force_eq, if_neg hopen]
    exact Or.inl (frameEq_rfl s)

theorem do_close_shape (s : Sys) (i : Nat) :
    FrameEq s (s.do_close i) ∨ PushShape s (s.do_close i) false none := by
  unfold Sys.do_close
  by_cases hopen : (decode_state s.state).is_open = true
  · rw [inc_num_messages_force_eq, if_pos hopen]
    dsimp only
    refine Or.inr ?_
    have hframe : ∀ (u : Sys) (c : Bool), FrameEq u (if c = true then u.park i false 0 else u) := by
      intro u c
      split
      · exact park_frame u i false 0
      · exact frameEq_rfl u
    obtain ⟨hfb, hfs, hfq, hfi, hfd⟩ := hframe
      { s with state := encode_state ⟨!true, (decode_state s.state).num_messages + 1⟩,
               inc_overflow := incOverflowFlag s }
      (s.buffer != 0 && decide (s.buffer ≤ (decode_state s.state).num_messages + 1))
    obtain ⟨hst, hq, hi, hd⟩ := qpas_fields
      (if (s.buffer != 0 && decide (s.buffer ≤ (decode_state s.state).num_messages + 1)) = true
       then Sys.park { s with state := encode_state ⟨!true, (decode_state s.state).num_messages + 1⟩,
                              inc_overflow := incOverflowFlag s } i false 0
       else { s with state := encode_state ⟨!true, (decode_state s.state).num_messages + 1⟩,
                     inc_overflow := incOverflowFlag s }) none
    refine ⟨?_, ?_, ?_, ?_⟩
    · rw [hst, hfs]
      rfl
    · rw [hq, hfq]
    · rw [hi, hfi]
    · rw [hd, hfd]
  · rw [inc_num_messages_force_eq, if_neg hopen]
    exact Or.inl (frameEq_rfl s)

theorem chanInv_poll_loop_empty (cur f : Nat) (s : Sys) (hq : s.message_queue = []) :
    FrameEq s (Sys.poll_loop cur f s).2 := by
  induction f generalizing s with
  | zero => exact frameEq_rfl s
  | succ f ih =>
    have hn : s.next_message = (Async.notReady, s) := by
      simp [Sys.next_message, hq]
    rw [poll_loop_succ, hn]
    dsimp only
    rcases hp : s.try_park cur with ⟨t, s2⟩
    have hf2 : FrameEq s s2 := by
      have h := try_park_frame s cur
      rw [hp] at h
      exact h
    cases t with
    | parked => exact hf2
    | closed => exact hf2
    | notEmpty =>
      have hq2 : s2.message_queue = [] := by
        obtain ⟨-, -, hq', -, -⟩ := hf2
        rw [hq']
        exact hq
      exact frameEq_trans hf2 (ih s2 hq2)

theorem chanInv_poll (s : Sys) (cur : Nat) (hInv : ChanInv s) : ChanInv (s.poll cur).2 := by
  unfold Sys.poll
  rcases hq : s.message_queue with _ | ⟨m, rest⟩
  · exact chanInv_of_frameEq (chanInv_poll_loop_empty cur 2 s hq) hInv
  · have hn : s.next_message = (Async.ready m, { s with message_queue := rest }) := by
      simp [Sys.next_message, hq]
    rw [show (2 : Nat) = 1 + 1 from rfl, poll_loop_succ, hn]
    dsimp only
    obtain ⟨hb2, hst2, hq2, hi2, hd2⟩ :=
      unpark_one_frame ({ s with message_queue := rest })
    have hst2' : ({ s with message_queue := rest }).unpark_one.state = s.state := by rw [hst2]
    have hq2' : ({ s with message_queue := rest }).unpark_one.message_queue = rest := by rw [hq2]
    have hi2' : ({ s with message_queue := rest }).unpark_one.inc_overflow = false := by
      rw [hi2]
      exact hInv.2.1
    have hd2' : ({ s with message_queue := rest }).unpark_one.dec_underflow = false := by
      rw [hd2]
      exact hInv.2.2
    have hnum : (decode_state s.state).num_messages = rest.length + 1 := by
      rw [hInv.1, hq]
      simp
    refine ⟨?_, ?_, ?_⟩
    · simp only [Sys.dec_messages]
      rw [hst2', hq2', decode_dec s.state (by omega)]
      dsimp only
      omega
    · simp only [Sys.dec_messages]
      exact hi2'
    · simp only [Sys.dec_messages]
      rw [hd2', hst2', hnum]
      simp

theorem chanInv_close (s : Sys) (hInv : ChanInv s) : ChanInv s.close := by
  unfold Sys.close
  dsimp only
  split
  · refine chanInv_of_frameEq (foldl_notify_frame _ _) ⟨?_, hInv.2.1, hInv.2.2⟩
    show (decode_state (encode_state ⟨false, (decode_state s.state).num_messages⟩)).num_messages
      = s.message_queue.length
    rw [decode_encode false _ (decode_num_le s.state)]
    exact hInv.1
  · exact chanInv_of_frameEq (foldl_notify_frame _ _) hInv

theorem chanInv_sender_step (s : Sys) (hInv : ChanInv s) :
    ChanInv (match s.sender with | none => s | some (_, s') => s') := by
  rcases hsd : s.sender with _ | ⟨i, s'⟩
  · exact hInv
  · unfold Sys.sender at hsd
    dsimp only at hsd
    have hInv1 : ChanInv (if (decode_state s.state).is_open = true then s
        else { s with state := encode_state { decode_state s.state with is_open := true } }) := by
      split
      · exact hInv
      · refine ⟨?_, hInv.2.1, hInv.2.2⟩
        show (decode_state (encode_state ⟨true, (decode_state s.state).num_messages⟩)).num_messages
          = s.message_queue.length
        rw [decode_encode true _ (decode_num_le s.state)]
        exact hInv.1
    exact chanInv_of_frameEq (clone_sender_frame hsd) hInv1

/-- Every channel operation preserves the counting invariant, as long as the
operation does not leave more than `MAX_CAPACITY` envelopes pending. -/
theorem step_preserves (op : Op) (s : Sys) (hInv : ChanInv s)
    (hb : (step op s).message_queue.length ≤ MAX_CAPACITY) :
    ChanInv (step op s) := by
  cases op with
  | trySend i msg cur =>
    rcases try_send_shape s i msg cur with hf | hsh
    · exact chanInv_of_frameEq hf hInv
    · exact chanInv_of_pushShape hInv hsh hb
  | send i msg cur =>
    rcases send_shape s i msg cur with hf | hsh
    · exact chanInv_of_frameEq hf hInv
    · exact chanInv_of_pushShape hInv hsh hb
  | doSend msg =>
    rcases do_send_shape s msg with hf | hsh
    · exact chanInv_of_frameEq hf hInv
    · exact chanInv_of_pushShape hInv hsh hb
  | dropSender i =>
    show ChanInv (s.drop_sender i)
    have hb' : (s.drop_sender i).message_queue.length ≤ MAX_CAPACITY := hb
    unfold Sys.drop_sender at hb' ⊢
    dsimp only at hb' ⊢
    by_cases hcond : s.num_senders = 1
    · rw [if_pos hcond] at hb' ⊢
      have hInv1 : ChanInv { s with num_senders := s.num_senders - 1 } :=
        chanInv_of_frameEq ⟨rfl, rfl, rfl, rfl, rfl⟩ hInv
      rcases do_close_shape { s with num_senders := s.num_senders - 1 } i with hf | hsh
      · exact chanInv_of_frameEq hf hInv1
      · exact chanInv_of_pushShape hInv1 hsh hb'
    · rw [if_neg hcond]
      exact chanInv_of_frameEq ⟨rfl, rfl, rfl, rfl, rfl⟩ hInv
  | cloneSender =>
    show ChanInv (match s.clone_sender with | none => s | some (_, s') => s')
    rcases hcl : s.clone_sender with _ | ⟨i, s'⟩
    · exact hInv
    · exact chanInv_of_frameEq (clone_sender_frame hcl) hInv
  | reopenSender => exact chanInv_sender_step s hInv
  | closeRx => exact chanInv_close s hInv
  | poll cur => exact chanInv_poll s cur hInv

theorem run_append_one (l : List Op) (a : Op) (s : Sys) :
    run (l ++ [a]) s = step a (run l s) := by
  unfold run
  rw [List.foldl_append]
  rfl

theorem chanInv_init (buffer : Nat) : ChanInv (initSys buffer) := by
  refine ⟨?_, rfl, rfl⟩
  show (decode_state INIT_STATE).num_messages = 0
  rw [decode_INIT]

/-- Any execution all of whose prefixes keep at most `MAX_CAPACITY` pending
envelopes maintains the counting invariant. -/
theorem run_chanInv (buffer : Nat) (ops : List Op)
    (hbound : ∀ n, (run (ops.take n) (initSys buffer)).message_queue.length ≤ MAX_CAPACITY) :
    ChanInv (run ops (initSys buffer)) := by
  induction ops using List.reverseRecOn with
  | nil => exact chanInv_init buffer
  | append_singleton l a ih =>
    have hbound' : ∀ n, (run (l.take n) (initSys buffer)).message_queue.length ≤ MAX_CAPACITY := by
      intro n
      by_cases hn : n ≤ l.length
      · have h := hbound n
        rw [List.take_append_of_le_length hn] at h
        exact h
      · have h := hbound l.length
        rw [List.take_append_of_le_length (Nat.le_refl _), List.take_length] at h
        rw [List.take_of_length_le (by omega)]
        exact h
    have hstep := hbound (l.length + 1)
    have hlen : (l ++ [a]).length = l.length + 1 := by simp
    rw [← hlen, List.take_length, run_append_one] at hstep
    rw [run_append_one]
    exact step_preserves a (run l (initSys buffer)) (ih hbound') hstep

theorem signal_of_unparked {s : Sys} (h : s.recv_unparked = true) : s.signal = s := by
  unfold Sys.signal
  rw [if_pos h]

theorem signal_of_parked {s : Sys} (h : s.recv_unparked = false) :
    s.signal = { s with recv_unparked := true, recv_task := none,
                        notified := s.notified ++ s.recv_task.toList } := by
  unfold Sys.signal
  rw [if_neg (by rw [h]; exact Bool.false_ne_true)]

/-- One `do_send` on an open channel, in closed form. -/
theorem do_send_step {s : Sys} {n : Nat} (msg : Nat)
    (hdec : decode_state s.state = ⟨true, n⟩) :
    (s.do_send msg).2 =
      Sys.signal { s with state := encode_state ⟨true, n + 1⟩,
                          inc_overflow := s.inc_overflow || decide (MAX_CAPACITY ≤ n),
                          message_queue := s.message_queue ++ [some msg] } := by
  unfold Sys.do_send
  rw [inc_num_messages_force_eq]
  simp only [hdec, incOverflowFlag]
  rfl

/-- Running `n ≤ MAX_CAPACITY` consecutive `do_send`s on a fresh unbounded
channel: the packed word holds an open channel with exactly `n` messages,
the queue holds the `n` envelopes, and no ghost flag is raised. -/
theorem run_doSend_closed (n : Nat) (h : n ≤ MAX_CAPACITY) :
    run (List.replicate n (Op.doSend 0)) (initSys 0) =
      { initSys 0 with
          state := encode_state ⟨true, n⟩,
          message_queue := List.replicate n (some 0),
          recv_unparked := n != 0 } := by
  induction n with
  | zero => rfl
  | succ n ih =>
    have hn : n ≤ MAX_CAPACITY := by omega
    rw [List.replicate_succ', run_append_one, ih hn]
    show (Sys.do_send _ 0).2 = _
    rw [do_send_step 0 (by exact decode_encode true n hn)]
    have hflag : decide (MAX_CAPACITY ≤ n) = false := by
      rw [decide_eq_false_iff_not]
      omega
    rw [hflag]
    cases n with
    | zero =>
      rw [signal_of_parked (by rfl)]
      rfl
    | succ m =>
      rw [signal_of_unparked (by rfl)]
      rw [← List.replicate_succ']
      rfl

theorem signal_state_eq (t : Sys) : (Sys.signal t).state = t.state := (signal_frame t).2.1

theorem signal_queue_eq (t : Sys) : (Sys.signal t).message_queue = t.message_queue :=
  (signal_frame t).2.2.1

theorem signal_inc_eq (t : Sys) : (Sys.signal t).inc_overflow = t.inc_overflow :=
  (signal_frame t).2.2.2.1

theorem signal_parked_queue (t : Sys) : (Sys.signal t).parked_queue = t.parked_queue := by
  unfold Sys.signal
  split <;> rfl

theorem signal_stasks (t : Sys) : (Sys.signal t).stasks = t.stasks := by
  unfold Sys.signal
  split <;> rfl

/-- `signal` always leaves the consumer's unpark flag set. -/
theorem signal_recv_unparked (t : Sys) : (Sys.signal t).recv_unparked = true := by
  unfold Sys.signal
  split
  · assumption
  · rfl

theorem qpas_parked_queue (s : Sys) (m : Option Nat) :
    (s.queue_push_and_signal m).parked_queue = s.parked_queue := by
  unfold Sys.queue_push_and_signal
  rw [signal_parked_queue]

theorem qpas_stasks (s : Sys) (m : Option Nat) :
    (s.queue_push_and_signal m).stasks = s.stasks := by
  unfold Sys.queue_push_and_signal
  rw [signal_stasks]

theorem qpas_recv_unparked (s : Sys) (m : Option Nat) :
    (s.queue_push_and_signal m).recv_unparked = true := by
  unfold Sys.queue_push_and_signal
  exact signal_recv_unparked _

theorem park_parked_queue (s : Sys) (i : Nat) (c : Bool) (cur : Nat) :
    (s.park i c cur).parked_queue = s.parked_queue ++ [i] := rfl

theorem park_stasks_self (s : Sys) (i : Nat) (c : Bool) (cur : Nat) :
    (s.park i c cur).stasks i = ⟨if c then some cur else none, true⟩ := by
  unfold Sys.park updSenderTask
  simp

theorem park_maybe_parked_self (s : Sys) (i : Nat) (c : Bool) (cur : Nat) :
    (s.park i c cur).maybe_parked i = (decode_state s.state).is_open := by
  unfold Sys.park updCell
  simp

theorem step_doSend (m : Nat) (s : Sys) : step (Op.doSend m) s = (s.do_send m).2 := rfl

/-- Claim C9 (amended): in every sequential execution of the channel's
operations (`try_send`, `send`, `do_send`, producer clone/drop, consumer
`poll`, `close`, `sender` — while the consumer is live) in which every
prefix leaves at most `MAX_CAPACITY` envelopes pending, `num_messages`
never wraps: after every prefix the decoded count equals the exact number
of pending envelopes, no increment ever pushed the count above
`MAX_CAPACITY` (ghost flag `inc_overflow` stays clear), and every
`dec_num_messages` ran on a count ≥ 1 (ghost flag `dec_underflow` stays
clear).  Without the pending bound the claim fails: `MAX_CAPACITY + 1`
unconsumed `do_send`s wrap the counter (see the counterexample). -/
theorem C9_no_wrap_of_bounded (buffer : Nat) (ops : List Op)
    (hbound : ∀ n, (run (ops.take n) (initSys buffer)).message_queue.length ≤ MAX_CAPACITY) :
    ∀ n, (decode_state (run (ops.take n) (initSys buffer)).state).num_messages =
           (run (ops.take n) (initSys buffer)).message_queue.length ∧
         (run (ops.take n) (initSys buffer)).inc_overflow = false ∧
         (run (ops.take n) (initSys buffer)).dec_underflow = false := by
  intro n
  exact run_chanInv buffer (ops.take n) (fun m => by
    rw [List.take_take]
    exact hbound (min m n))

/-- Counterexample to claim C9 as stated: `MAX_CAPACITY + 1 = 2^63`
consecutive `do_send` calls on a fresh unbounded channel form a reachable
sequential execution in which the last increment pushes `num_messages`
above `MAX_CAPACITY`: the ghost overflow flag is raised and the decoded
count has wrapped to 0 although `2^63` envelopes are pending. -/
theorem C9_counterexample :
    (run (List.replicate (2 ^ 63) (Op.doSend 0)) (initSys 0)).inc_overflow = true ∧
    (decode_state (run (List.replicate (2 ^ 63) (Op.doSend 0)) (initSys 0)).state).num_messages
      = 0 ∧
    (run (List.replicate (2 ^ 63) (Op.doSend 0)) (initSys 0)).message_queue.length = 2 ^ 63 := by
  have h63 : (2 : Nat) ^ 63 = MAX_CAPACITY + 1 := by decide
  rw [h63, List.replicate_succ', run_append_one,
      run_doSend_closed MAX_CAPACITY (Nat.le_refl _), step_doSend,
      do_send_step 0 (decode_encode true MAX_CAPACITY (Nat.le_refl _))]
  refine ⟨?_, ?_, ?_⟩
  · rw [signal_inc_eq]
    decide
  · rw [signal_state_eq]
    decide
  · rw [signal_queue_eq]
    show (List.replicate MAX_CAPACITY (some 0) ++ [some 0]).length = MAX_CAPACITY + 1
    rw [← List.replicate_succ', List.length_replicate]

/-- Witness for C9: a concrete bounded execution (one `try_send`, one
`poll` on a buffer-1 channel) satisfies the pending bound, so the invariant
holds after every prefix. -/
theorem C9_witness :
    (decode_state (run ([Op.trySend 0 5 7, Op.poll 9].take 2) (initSys 1)).state).num_messages =
      (run ([Op.trySend 0 5 7, Op.poll 9].take 2) (initSys 1)).message_queue.length ∧
    (run ([Op.trySend 0 5 7, Op.poll 9].take 2) (initSys 1)).inc_overflow = false ∧
    (run ([Op.trySend 0 5 7, Op.poll 9].take 2) (initSys 1)).dec_underflow = false := by
  refine C9_no_wrap_of_bounded 1 [Op.trySend 0 5 7, Op.poll 9] ?_ 2
  intro n
  match n with
  | 0 => decide
  | 1 => decide
  | m + 2 =>
    rw [List.take_of_length_le (by simp)]
    decide

/-- The concrete pre-state for the C1 counterexample: the last producer has
been dropped after a producer parked, so the channel word is closed with the
sentinel's reservation counted (`state = 1`), the message queue holds the
`None` sentinel, and producer 1 sits parked on the parked queue with task
handle 5. -/
def c1State : Sys where
  buffer := 2
  state := 1
  message_queue := [none]
  parked_queue := [1]
  num_senders := 0
  recv_unparked := true
  recv_task := none
  stasks := fun j => if j = 1 then ⟨some 5, true⟩ else SenderTask.new
  maybe_parked := fun j => j == 1
  next_id := 2
  notified := []
  inc_overflow := false
  dec_underflow := false

/-- Counterexample to claim C1: dequeuing the terminating sentinel, `poll`
returns `Ready(None)` but it DOES pop the parked queue (producer 1 is
notified: its handle 5 is woken and its slot unparked) and it DOES
decrement `num_messages` (decoded count drops from 1 to 0). -/
theorem C1_counterexample :
    (Sys.poll c1State 9).1 = Async.ready none ∧
    (Sys.poll c1State 9).2.parked_queue = [] ∧
    ((Sys.poll c1State 9).2.stasks 1).is_parked = false ∧
    (Sys.poll c1State 9).2.notified = [5] ∧
    (decode_state c1State.state).num_messages = 1 ∧
    (decode_state (Sys.poll c1State 9).2.state).num_messages = 0 := by
  refine ⟨?_, ?_, ?_, ?_, ?_, ?_⟩ <;> decide

/-- Claim C1 (amended): when `poll` dequeues the terminating sentinel it
returns `Ready(None)`, but — exactly as for a real envelope — it still runs
`unpark_one` (popping the parked queue) and still decrements `num_messages`:
the result state is the popped state passed through `unpark_one` and
`dec_messages`. -/
theorem C1_poll_sentinel (s : Sys) (cur : Nat) (rest : List (Option Nat))
    (hq : s.message_queue = none :: rest) :
    (s.poll cur).1 = Async.ready none ∧
    (s.poll cur).2 = ({ s with message_queue := rest }).unpark_one.dec_messages := by
  unfold Sys.poll
  have hn : s.next_message = (Async.ready none, { s with message_queue := rest }) := by
    simp [Sys.next_message, hq]
  rw [show (2 : Nat) = 1 + 1 from rfl, poll_loop_succ, hn]
  exact ⟨rfl, rfl⟩

/-- Witness for C1: the amended sentinel behaviour at the concrete state. -/
theorem C1_witness :
    (Sys.poll c1State 9).1 = Async.ready none ∧
    (Sys.poll c1State 9).2 = ({ c1State with message_queue := [] }).unpark_one.dec_messages :=
  C1_poll_sentinel c1State 9 [] rfl

/-- Claim C2 (amended): `inc_num_messages` reports closed and leaves the
word untouched when `is_open` is clear; reports should-park and leaves the
word untouched (no increment for a parking producer) when `buffer > 0` and
the count has reached `buffer`; otherwise it reports proceed and increments
the decoded count by exactly one — provided the count is below
`MAX_CAPACITY`.  (At `num_messages = MAX_CAPACITY`, reachable only when
`buffer = 0`, the increment overflows into the open bit and the decoded
count wraps to 0: see the counterexample.) -/
theorem C2_inc_num_messages (buffer curr : Nat) :
    ((decode_state curr).is_open = false → inc_num_messages buffer curr = (none, curr)) ∧
    ((decode_state curr).is_open = true → buffer ≠ 0 →
      buffer ≤ (decode_state curr).num_messages →
      inc_num_messages buffer curr = (some true, curr)) ∧
    ((decode_state curr).is_open = true →
      (buffer = 0 ∨ (decode_state curr).num_messages < buffer) →
      (decode_state curr).num_messages < MAX_CAPACITY →
      (inc_num_messages buffer curr).1 = some false ∧
      decode_state (inc_num_messages buffer curr).2 =
        ⟨true, (decode_state curr).num_messages + 1⟩) := by
  refine ⟨?_, ?_, ?_⟩
  · intro h
    rw [inc_num_messages_eq, if_neg (by rw [h]; exact Bool.false_ne_true)]
  · intro h hb hle
    rw [inc_num_messages_eq, if_pos h, if_pos]
    rw [Bool.and_eq_true, bne_iff_ne, decide_eq_true_eq]
    exact ⟨hb, hle⟩
  · intro h hor hlt
    rw [inc_num_messages_eq, if_pos h, if_neg]
    · exact ⟨rfl, decode_encode true _ (by omega)⟩
    · rw [Bool.and_eq_true, bne_iff_ne, decide_eq_true_eq]
      rintro ⟨hb, hle⟩
      rcases hor with h0 | hlt2
      · exact hb h0
      · omega

/-- Counterexample to claim C2 as stated: at the full-capacity word (open,
`num_messages = MAX_CAPACITY`, with `buffer = 0` so no park is required),
the "proceed" branch does not increment the decoded count by one — the
increment overflows into the open bit and the decoded count wraps to 0. -/
theorem C2_counterexample :
    (inc_num_messages 0 USIZE_MAX).1 = some false ∧
    (decode_state USIZE_MAX).num_messages = MAX_CAPACITY ∧
    (decode_state (inc_num_messages 0 USIZE_MAX).2).num_messages ≠
      (decode_state USIZE_MAX).num_messages + 1 := by
  refine ⟨?_, ?_, ?_⟩ <;> decide

/-- Witness for C2: the proceed branch at a fresh open word with buffer 2. -/
theorem C2_witness :
    (inc_num_messages 2 INIT_STATE).1 = some false ∧
    decode_state (inc_num_messages 2 INIT_STATE).2 =
      ⟨true, (decode_state INIT_STATE).num_messages + 1⟩ :=
  (C2_inc_num_messages 2 INIT_STATE).2.2 (by decide) (Or.inr (by decide)) (by decide)

def c3s0 : Sys := initSys 2

def c3r1 : SendResult × Sys := Sys.try_send c3s0 0 1 50

def c3r2 : SendResult × Sys := Sys.try_send c3r1.2 0 2 50

def c3r3 : SendResult × Sys := Sys.try_send c3r2.2 0 3 50

def c3p1 : Async (Option Nat) × Sys := Sys.poll c3r3.2 100

def c3r4 : SendResult × Sys := Sys.try_send c3p1.2 0 3 50

def c3p2 : Async (Option Nat) × Sys := Sys.poll c3r4.2 100

def c3p3 : Async (Option Nat) × Sys := Sys.poll c3p2.2 100

def c3d : Sys := Sys.drop_sender c3p3.2 0

def c3p4 : Async (Option Nat) × Sys := Sys.poll c3d 100

/-- Claim C3 (scenario S1, sequential, buffer = 2, one producer):
`try_send 1` and `try_send 2` return Ok, `try_send 3` returns
`NotReady(3)`; poll returns `Ready(Some 1)`; the retried `try_send 3`
returns Ok; the next two polls return `Ready(Some 2)` and `Ready(Some 3)`;
after the producer handle is dropped, poll returns `Ready(None)`. -/
theorem C3_scenario_S1 :
    c3r1.1 = SendResult.ok ∧
    c3r2.1 = SendResult.ok ∧
    c3r3.1 = SendResult.notReady 3 ∧
    c3p1.1 = Async.ready (some 1) ∧
    c3r4.1 = SendResult.ok ∧
    c3p2.1 = Async.ready (some 2) ∧
    c3p3.1 = Async.ready (some 3) ∧
    c3p4.1 = Async.ready none := by
  refine ⟨?_, ?_, ?_, ?_, ?_, ?_, ?_, ?_⟩ <;> decide

/-- Counterexample to claim C4: with `buffer = 1` and no pending messages,
the count resulting from the closing increment is 1, which does NOT
strictly exceed `buffer = 1`, yet `do_close` calls `park(false)`: the
parked queue gains the producer's SenderTask.  The source parks on
`new count ≥ buffer`, not `new count > buffer`. -/
theorem C4_counterexample :
    (Sys.do_close (initSys 1) 0).parked_queue = [0] ∧
    ((Sys.do_close (initSys 1) 0).stasks 0).is_parked = true ∧
    (decode_state (initSys 1).state).num_messages + 1 = 1 ∧
    ¬ (1 : Nat) > 1 := by
  refine ⟨?_, ?_, ?_, ?_⟩ <;> decide

/-- Claim C4 (amended): in `do_close` on an open channel (count below
`MAX_CAPACITY`), `park(can_park = false)` runs if and only if `buffer > 0`
and the count resulting from the closing increment is at least `buffer`
(`≥`, not strictly greater); in every open case exactly one `None` sentinel
is appended to the message queue, the consumer is signalled, and the word
is closed. -/
theorem C4_do_close (s : Sys) (i : Nat)
    (hopen : (decode_state s.state).is_open = true)
    (hlt : (decode_state s.state).num_messages < MAX_CAPACITY) :
    (s.do_close i).message_queue = s.message_queue ++ [none] ∧
    (s.do_close i).recv_unparked = true ∧
    (decode_state (s.do_close i).state).is_open = false ∧
    (s.buffer ≠ 0 → s.buffer ≤ (decode_state s.state).num_messages + 1 →
      (s.do_close i).parked_queue = s.parked_queue ++ [i] ∧
      (s.do_close i).stasks i = ⟨none, true⟩) ∧
    ((s.buffer = 0 ∨ (decode_state s.state).num_messages + 1 < s.buffer) →
      (s.do_close i).parked_queue = s.parked_queue) := by
  unfold Sys.do_close
  rw [inc_num_messages_force_eq, if_pos hopen]
  dsimp only
  by_cases hpark :
      (s.buffer != 0 && decide (s.buffer ≤ (decode_state s.state).num_messages + 1)) = true
  · rw [if_pos hpark]
    rw [Bool.and_eq_true, bne_iff_ne, decide_eq_true_eq] at hpark
    refine ⟨?_, qpas_recv_unparked _ _, ?_, ?_, ?_⟩
    · rw [(qpas_fields _ _).2.1]
      rfl
    · rw [(qpas_fields _ _).1]
      show (decode_state (Sys.park _ i false 0).state).is_open = false
      have hs : (Sys.park { s with
          state := encode_state ⟨!true, (decode_state s.state).num_messages + 1⟩,
          inc_overflow := incOverflowFlag s } i false 0).state =
          encode_state ⟨false, (decode_state s.state).num_messages + 1⟩ := rfl
      rw [hs, decode_encode false _ (by omega)]
    · intro _ _
      rw [qpas_parked_queue, qpas_stasks]
      constructor
      · rw [park_parked_queue]
      · rw [park_stasks_self]
        rfl
    · rintro (h0 | hlt2)
      · exact absurd h0 hpark.1
      · exact absurd hpark.2 (by omega)
  · rw [if_neg hpark]
    refine ⟨?_, qpas_recv_unparked _ _, ?_, ?_, ?_⟩
    · rw [(qpas_fields _ _).2.1]
    · rw [(qpas_fields _ _).1]
      show (decode_state (encode_state ⟨!true, (decode_state s.state).num_messages + 1⟩)).is_open
        = false
      rw [show encode_state ⟨!true, (decode_state s.state).num_messages + 1⟩ =
            encode_state ⟨false, (decode_state s.state).num_messages + 1⟩ from rfl,
          decode_encode false _ (by omega)]
    · intro hb hle
      rw [Bool.and_eq_true, bne_iff_ne, decide_eq_true_eq] at hpark
      exact absurd ⟨hb, hle⟩ hpark
    · intro _
      rw [qpas_parked_queue]

/-- Witness for C4: closing the fresh buffer-1 channel parks the producer
(new count 1 = buffer) and pushes the sentinel. -/
theorem C4_witness :
    (Sys.do_close (initSys 1) 0).message_queue = (initSys 1).message_queue ++ [none] ∧
    (Sys.do_close (initSys 1) 0).recv_unparked = true ∧
    (Sys.do_close (initSys 1) 0).parked_queue = (initSys 1).parked_queue ++ [0] := by
  obtain ⟨h1, h2, h3, h4, h5⟩ := C4_do_close (initSys 1) 0 (by decide) (by decide)
  exact ⟨h1, h2, (h4 (by decide) (by decide)).1⟩

/-- Counterexample to claim C5: `park` called while the channel is closed
(here: state word 0) parks the SenderTask and pushes it, but sets the
`maybe_parked` cache to `false` — the source stores the freshly read
`is_open` flag there, not `true`. -/
theorem C5_counterexample :
    (decode_state ({ initSys 1 with state := 0 } : Sys).state).is_open = false ∧
    ((Sys.park { initSys 1 with state := 0 } 0 true 7).stasks 0).is_parked = true ∧
    (Sys.park { initSys 1 with state := 0 } 0 true 7).parked_queue = [0] ∧
    (Sys.park { initSys 1 with state := 0 } 0 true 7).maybe_parked 0 = false := by
  refine ⟨?_, ?_, ?_, ?_⟩ <;> decide

/-- Claim C5 (amended): on return from `park(can_park)` the producer's
SenderTask holds the captured handle (when `can_park`) with
`is_parked = true` and a shared reference to it has been pushed onto
`parked_queue`; the `maybe_parked` cache, however, is set to the `is_open`
flag read from the state word after the push — true exactly when the
channel is open at that moment, false when it has been closed. -/
theorem C5_park (s : Sys) (i : Nat) (can_park : Bool) (cur : Nat) :
    (s.park i can_park cur).stasks i = ⟨if can_park then some cur else none, true⟩ ∧
    (s.park i can_park cur).parked_queue = s.parked_queue ++ [i] ∧
    (s.park i can_park cur).maybe_parked i = (decode_state s.state).is_open :=
  ⟨park_stasks_self s i can_park cur, park_parked_queue s i can_park cur,
   park_maybe_parked_self s i can_park cur⟩

def c6State : Sys :=
  { initSys 2 with stasks := fun j => if j = 0 then ⟨some 7, true⟩ else SenderTask.new,
                   maybe_parked := fun j => j == 0 }

/-- Counterexample to claim C6: a `do_park = false` call (as made by `send`
and `try_send`) on a parked SenderTask holding handle 7, with the caller's
current task being 9, returns not-ready but CLEARS the stored handle to
`None` instead of refreshing it to the caller's handle. -/
theorem C6_counterexample :
    ((Sys.poll_unparked c6State 0 false 9).2.stasks 0).task = none ∧
    (Sys.poll_unparked c6State 0 false 9).1 = Async.notReady ∧
    (none : Option Nat) ≠ some 9 := by
  refine ⟨?_, ?_, ?_⟩ <;> decide

/-- Claim C6 (amended): when `poll_unparked`'s slow path finds `is_parked`
set, not-ready is returned and the stored task handle is overwritten:
with `Some(current)` when `do_park` is set, but with `None` when it is not —
in particular the `do_park = false` calls made by `send` and `try_send`
clear the handle rather than refresh it. -/
theorem C6_poll_unparked (s : Sys) (i : Nat) (do_park : Bool) (cur : Nat)
    (h1 : s.maybe_parked i = true) (h2 : (s.stasks i).is_parked = true) :
    (s.poll_unparked i do_park cur).1 = Async.notReady ∧
    ((s.poll_unparked i do_park cur).2.stasks i).task =
      (if do_park then some cur else none) ∧
    ((s.poll_unparked i do_park cur).2.stasks i).is_parked = true := by
  unfold Sys.poll_unparked
  rw [if_pos h1, if_neg (by rw [h2]; exact Bool.false_ne_true)]
  refine ⟨rfl, ?_, ?_⟩
  · show (updSenderTask s.stasks i _ i).task = _
    unfold updSenderTask
    simp
  · show (updSenderTask s.stasks i _ i).is_parked = true
    unfold updSenderTask
    simp [h2]

/-- Witness for C6: a `do_park = true` call refreshes the handle to the
caller's current task 9. -/
theorem C6_witness :
    (Sys.poll_unparked c6State 0 true 9).1 = Async.notReady ∧
    ((Sys.poll_unparked c6State 0 true 9).2.stasks 0).task = (if true then some 9 else none) ∧
    ((Sys.poll_unparked c6State 0 true 9).2.stasks 0).is_parked = true :=
  C6_poll_unparked c6State 0 true 9 (by decide) (by decide)

/-- Claim C7 (amended): `do_send` never parks (the parked queue is never
touched) and never reports not-ready: it returns `Closed(msg)` — carrying
the original message, with the state untouched — if and only if `is_open`
is clear, and otherwise pushes the envelope, signals the consumer, returns
Ok, and increments the decoded count by exactly one even when
`num_messages ≥ buffer`, provided the count is below `MAX_CAPACITY` (at the
full-capacity boundary the increment wraps — see the counterexample). -/
theorem C7_do_send (s : Sys) (msg : Nat) :
    (∀ m, (s.do_send msg).1 ≠ SendResult.notReady m) ∧
    (s.do_send msg).2.parked_queue = s.parked_queue ∧
    ((decode_state s.state).is_open = false →
      s.do_send msg = (SendResult.closed msg, s)) ∧
    ((decode_state s.state).is_open = true →
      (s.do_send msg).1 = SendResult.ok ∧
      (s.do_send msg).2.message_queue = s.message_queue ++ [some msg] ∧
      (s.do_send msg).2.recv_unparked = true ∧
      ((decode_state s.state).num_messages < MAX_CAPACITY →
        decode_state (s.do_send msg).2.state =
          ⟨true, (decode_state s.state).num_messages + 1⟩)) := by
  by_cases hopen : (decode_state s.state).is_open = true
  · have hds : s.do_send msg =
        (SendResult.ok,
         Sys.queue_push_and_signal
           { s with state := encode_state ⟨true, (decode_state s.state).num_messages + 1⟩,
                    inc_overflow := incOverflowFlag s } (some msg)) := by
      unfold Sys.do_send
      rw [inc_num_messages_force_eq, if_pos hopen]
      rfl
    rw [hds]
    refine ⟨fun m h => by simp at h, ?_, fun hcl => absurd hopen (by rw [hcl]; simp), ?_⟩
    · rw [qpas_parked_queue]
    · intro _
      refine ⟨rfl, ?_, qpas_recv_unparked _ _, ?_⟩
      · rw [(qpas_fields _ _).2.1]
      · intro hlt
        rw [(qpas_fields _ _).1]
        exact decode_encode true _ (by omega)
  · have hds : s.do_send msg = (SendResult.closed msg, s) := by
      unfold Sys.do_send
      rw [inc_num_messages_force_eq, if_neg hopen]
    rw [hds]
    exact ⟨fun m h => by simp at h, rfl, fun _ => rfl, fun h => absurd h hopen⟩

/-- Counterexample to claim C7 as stated: at the full-capacity open word
(`num_messages = MAX_CAPACITY`), `do_send` still succeeds but does not
increment the decoded count by one — it wraps to 0. -/
theorem C7_counterexample :
    (Sys.do_send { initSys 0 with state := USIZE_MAX } 3).1 = SendResult.ok ∧
    (decode_state ({ initSys 0 with state := USIZE_MAX } : Sys).state).num_messages
      = MAX_CAPACITY ∧
    (decode_state (Sys.do_send { initSys 0 with state := USIZE_MAX } 3).2.state).num_messages
      ≠ MAX_CAPACITY + 1 ∧
    (decode_state (Sys.do_send { initSys 0 with state := USIZE_MAX } 3).2.state).num_messages
      = 0 := by
  refine ⟨?_, ?_, ?_, ?_⟩ <;> decide

/-- Witness for C7: a `do_send` on the fresh unbounded channel. -/
theorem C7_witness :
    (Sys.do_send (initSys 0) 5).1 = SendResult.ok ∧
    (Sys.do_send (initSys 0) 5).2.message_queue = (initSys 0).message_queue ++ [some 5] ∧
    (Sys.do_send (initSys 0) 5).2.recv_unparked = true ∧
    decode_state (Sys.do_send (initSys 0) 5).2.state =
      ⟨true, (decode_state (initSys 0).state).num_messages + 1⟩ := by
  obtain ⟨h1, h2, h3, h4⟩ := (C7_do_send (initSys 0) 5).2.2.2 (by decide)
  exact ⟨h1, h2, h3, h4 (by decide)⟩

/-- Counterexample to claim C8: no channel with `buffer = MAX_CAPACITY - 1`
is ever constructed — the constructor's assertion `buffer < MAX_BUFFER`
fails (`MAX_CAPACITY - 1 ≥ MAX_BUFFER = MAX_CAPACITY >> 1`), i.e.
`channel(MAX_CAPACITY - 1)` panics before any clone can be attempted. -/
theorem C8_counterexample :
    channel (MAX_CAPACITY - 1) = none ∧ ¬ MAX_CAPACITY - 1 < MAX_BUFFER :=
  ⟨rfl, by decide⟩

/-- Claim C8 (amended): the S6 scenario never reaches a clone, because the
constructor itself panics for `buffer = MAX_CAPACITY - 1` (the assertion
requires `buffer < MAX_BUFFER`).  The clone ceiling itself does hold: in
any channel state with `buffer = MAX_CAPACITY - 1` and a single live
producer, `max_senders = MAX_CAPACITY - buffer = 1` is already reached, so
`clone` panics immediately. -/
theorem C8_clone_ceiling (s : Sys) (hbuf : s.buffer = MAX_CAPACITY - 1)
    (hns : s.num_senders = 1) : s.clone_sender = none := by
  unfold Sys.clone_sender Sys.max_senders
  rw [hbuf, hns, if_pos (by decide)]

/-- Witness for C8: the hypothetical state with the over-large buffer and
one producer panics on clone. -/
theorem C8_witness :
    Sys.clone_sender { initSys 0 with buffer := MAX_CAPACITY - 1 } = none :=
  C8_clone_ceiling { initSys 0 with buffer := MAX_CAPACITY - 1 } rfl rfl

/-- Claim C10: after `SenderTask::notify` runs for producer `i`, its slot
has `is_parked = false` and `task = None`, the removed handle (if any)
having been notified exactly once (it is appended once to the notification
log); consequently the producer's next `poll_unparked` — with any `do_park`
— returns ready, and its `maybe_parked` cache is clear afterwards, so a
producer woken by `unpark_one` or by the consumer's `close` is no longer
treated as parked on its next send attempt. -/
theorem C10_notify_unparks (s : Sys) (i : Nat) (do_park : Bool) (cur : Nat) :
    ((s.notify_sender i).stasks i).is_parked = false ∧
    ((s.notify_sender i).stasks i).task = none ∧
    (s.notify_sender i).notified = s.notified ++ (s.stasks i).task.toList ∧
    ((s.notify_sender i).poll_unparked i do_park cur).1 = Async.ready () ∧
    ((s.notify_sender i).poll_unparked i do_park cur).2.maybe_parked i = false := by
  have hst : (s.notify_sender i).stasks i = ⟨none, false⟩ := by
    unfold Sys.notify_sender SenderTask.notify updSenderTask
    simp
  refine ⟨by rw [hst], by rw [hst], rfl, ?_, ?_⟩
  all_goals
    unfold Sys.poll_unparked
    by_cases hmp : (s.notify_sender i).maybe_parked i = true
  · rw [if_pos hmp, if_pos (by rw [hst]; rfl)]
  · rw [if_neg hmp]
  · rw [if_pos hmp, if_pos (by rw [hst]; rfl)]
    show updCell (s.notify_sender i).maybe_parked i false i = false
    unfold updCell
    simp
  · rw [if_neg hmp]
    show (s.notify_sender i).maybe_parked i = false
    exact Bool.not_eq_true _ ▸ hmp
